import Mathlib

/-!
Verification of the multi-timeframe adaptive ensemble decision engine
(`src/utils/ensemble-multi-tf.ts`, `src/utils/ensemble-decision.ts`,
`src/indicators/ema.ts`) of the `automation-js` repository.

The arithmetic of the engine is over JavaScript numbers; here it is embedded over
`ℚ` (exact arithmetic).  Weight maps are functions over the fixed set of nine
indicator keys that `EnsembleAdaptive` iterates over; the performance database,
which the source keys by arbitrary strings, is kept string-keyed.  The nine
indicator evaluators called inside `decision` (lines 263-432) are external
collaborators producing votes; the embedding takes the vote list of each timeframe
as an input, exactly as the aggregation code (lines 434 onward) consumes it.
-/

namespace Automation

/-- The nine indicator keys of `EnsembleAdaptive.indicatorBase`. -/
inductive Ind where
  | ema | macd | ichimoku | rsi | adx | bollinger | vwap | alligator | volume
deriving DecidableEq

/-- The string id each indicator uses in the performance database. -/
def Ind.key : Ind → String
  | .ema => "ema"
  | .macd => "macd"
  | .ichimoku => "ichimoku"
  | .rsi => "rsi"
  | .adx => "adx"
  | .bollinger => "bollinger"
  | .vwap => "vwap"
  | .alligator => "alligator"
  | .volume => "volume"

/-- A weight map over the nine indicator keys (a `Record<string, number>`
restricted to the keys the engine uses). -/
def Weights : Type := Ind → ℚ

/-- Sum of the values of a weight map, i.e. `Object.values(w).reduce((a,b)=>a+b,0)`. -/
def sumW (w : Weights) : ℚ :=
  w .ema + w .macd + w .ichimoku + w .rsi + w .adx + w .bollinger +
    w .vwap + w .alligator + w .volume

/-- `clamp(x, a, b) = Math.max(a, Math.min(b, x))` from the source. -/
def clampQ (x a b : ℚ) : ℚ := max a (min b x)

/-- `minWeight = 0.02`: floor per indicator after normalization. -/
def minWeight : ℚ := 0.02

/-- `maxBoost = 1.35`: maximal performance boost. -/
def maxBoost : ℚ := 1.35

/-- `maxCut = 0.65`: maximal performance penalty. -/
def maxCut : ℚ := 0.65

/-- `alpha = 0.12`: EWMA smoothing factor. -/
def alphaQ : ℚ := 0.12

/-- `EnsembleAdaptive.normalizeWeights`: if the sum is `≤ 0` the map is
returned unchanged; otherwise each value is divided by the sum and floored at
`minWeight`, and the result is divided by its new sum. -/
def normalizeWeights (w : Weights) : Weights :=
  let s := sumW w
  if s ≤ 0 then w
  else
    let out : Weights := fun k => max minWeight (w k / s)
    let s2 := sumW out
    fun k => out k / s2

/-- The second-pass sum of `normalizeWeights` (the sum of the floored values). -/
def sumFloored (w : Weights) : ℚ :=
  sumW (fun k => max minWeight (w k / sumW w))

/-- The intraday test `/^(1|3|5|15|30)m$|^1h$/.test(interval)`: the regex is
anchored, so it is exact equality with one of six labels. -/
def isIntra (interval : String) : Bool :=
  interval == "1m" || interval == "3m" || interval == "5m" ||
    interval == "15m" || interval == "30m" || interval == "1h"

/-- The additive tilt of `adaptWeightsByInterval` before renormalization:
intraday boosts vwap/volume and cuts ichimoku/alligator; higher timeframes
boost ema/ichimoku and cut vwap/volume (cuts clamped at 0). -/
def adaptRaw (interval : String) (base : Weights) : Weights := fun k =>
  if isIntra interval then
    match k with
    | .ema => base .ema
    | .macd => base .macd
    | .ichimoku => max 0 (base .ichimoku - 0.03)
    | .rsi => base .rsi
    | .adx => base .adx
    | .bollinger => base .bollinger
    | .vwap => base .vwap + 0.03
    | .alligator => max 0 (base .alligator - 0.02)
    | .volume => base .volume + 0.02
  else
    match k with
    | .ema => base .ema + 0.02
    | .macd => base .macd
    | .ichimoku => base .ichimoku + 0.02
    | .rsi => base .rsi
    | .adx => base .adx
    | .bollinger => base .bollinger
    | .vwap => max 0 (base .vwap - 0.02)
    | .alligator => base .alligator
    | .volume => max 0 (base .volume - 0.02)

/-- `EnsembleAdaptive.adaptWeightsByInterval`. -/
def adaptWeightsByInterval (interval : String) (base : Weights) : Weights :=
  normalizeWeights (adaptRaw interval base)

/-- Whether `pat` is a prefix of `s` (character lists). -/
def listStartsWith : List Char → List Char → Bool
  | [], _ => true
  | _ :: _, [] => false
  | a :: as, b :: bs => a == b && listStartsWith as bs

/-- Whether `pat` occurs contiguously in `s` (JavaScript `String.includes`). -/
def listHasSub (pat : List Char) : List Char → Bool
  | [] => pat.isEmpty
  | c :: rest => listStartsWith pat (c :: rest) || listHasSub pat rest

/-- JavaScript `s.includes(pat)`. -/
def strIncludes (s pat : String) : Bool := listHasSub pat.data s.data

/-- `EnsembleAdaptive.tfAutoWeight`: timeframe importance derived from the
lowercased label. -/
def tfAutoWeight (label : String) : ℚ :=
  let L := label.toLower
  if strIncludes L "1d" || L == "d" || strIncludes L "daily" then 2.0
  else if strIncludes L "4h" then 1.6
  else if strIncludes L "1h" then 1.4
  else if strIncludes L "30m" then 1.2
  else if strIncludes L "15m" then 1.1
  else 1.0

/-- Per-indicator performance record (`IndicatorPerf`). -/
structure Perf where
  ewmaWin : ℚ
  ewmaEdge : ℚ
  n : ℕ
deriving DecidableEq

/-- The record created lazily on the first outcome update:
`{ ewmaWin: 0.5, ewmaEdge: 0, n: 0 }`. -/
def defaultPerf : Perf := ⟨0.5, 0, 0⟩

/-- The performance database `PerformanceDB = Record<string, IndicatorPerf>`,
keyed by arbitrary strings as in the source. -/
def PerfDB : Type := String → Option Perf

/-- One loop iteration of `updateWithOutcome` applied to a record. -/
def stepOutcome (outcomePct : ℚ) (cur : Perf) : Perf :=
  let win : ℚ := if 0 < outcomePct then 1 else 0
  { ewmaWin := (1 - alphaQ) * cur.ewmaWin + alphaQ * win
    ewmaEdge := (1 - alphaQ) * cur.ewmaEdge + alphaQ * outcomePct
    n := cur.n + 1 }

/-- `EnsembleAdaptive.updateWithOutcome`: sequentially updates the record of
each listed indicator id, creating `defaultPerf` for unknown ids. -/
def updateWithOutcome (outcomePct : ℚ) (usedIndicators : List String)
    (db : PerfDB) : PerfDB :=
  usedIndicators.foldl
    (fun db id => fun j =>
      if j = id then some (stepOutcome outcomePct ((db id).getD defaultPerf))
      else db j)
    db

/-- `EnsembleAdaptive.perfMultiplier`: converts a performance record into a
weight multiplier, `1.0` when there is no record. -/
def perfMultiplier (db : PerfDB) (id : String) : ℚ :=
  match db id with
  | none => 1.0
  | some p =>
    let winAdj := (p.ewmaWin - 0.5) * 2
    let edgeAdj := clampQ p.ewmaEdge (-1.5) 1.5 / 1.5
    let mix := 0.6 * winAdj + 0.4 * edgeAdj
    let mult := if 0 ≤ mix then 1 + mix * (maxBoost - 1) else 1 + mix * (1 - maxCut)
    clampQ mult maxCut maxBoost

/-- The engine state: baseline weights and performance database. -/
structure EngineState where
  indicatorBase : Weights
  perf : PerfDB

/-- The default contents of `indicatorBase`. -/
def indicatorBaseDefault : Weights
  | .ema => 0.18
  | .macd => 0.18
  | .ichimoku => 0.14
  | .rsi => 0.12
  | .adx => 0.1
  | .bollinger => 0.1
  | .vwap => 0.08
  | .alligator => 0.06
  | .volume => 0.04

/-- `EnsembleAdaptive.buildIndicatorWeightsForTF`: baseline → timeframe
adaptation → performance multipliers → normalization. -/
def buildIndicatorWeightsForTF (st : EngineState) (tfLabel : String) : Weights :=
  let adapt := adaptWeightsByInterval tfLabel st.indicatorBase
  let perfAdj : Weights := fun k => adapt k * perfMultiplier st.perf k.key
  normalizeWeights perfAdj

/-- `TDirection`. -/
inductive Dir where
  | buy | sell | none
deriving DecidableEq

/-- `TEntryState`. -/
inductive Entry where
  | triggered | noTrigger
deriving DecidableEq

/-- `QUALITY_DEFAULT = 0.9`. -/
def QUALITY_DEFAULT : ℚ := 0.9

/-- The `IndicatorVote` record collected per indicator inside `decision`.
`dir`, `conf`, `qual` and the auxiliary fields are copied from the indicator
result; `isValid` additionally records the `health.isValid` flag of that
result (the source drops it when building the vote, and the aggregation never
reads it — the vote contract only guarantees that an invalid result carries
`directional: 0, confidence: 0`). -/
structure Vote where
  id : Ind
  dir : ℚ
  conf : ℚ
  qual : Option ℚ
  priceRef : Option ℚ := Option.none
  stopLong : Option ℚ := Option.none
  stopShort : Option ℚ := Option.none
  atr : Option ℚ := Option.none
  isValid : Bool := true
deriving DecidableEq

/-- `v.qual ?? QUALITY_DEFAULT`. -/
def qualD (v : Vote) : ℚ := v.qual.getD QUALITY_DEFAULT

/-- The per-timeframe aggregation (lines 434-444): numerator
`Σ dir·conf·qual·w`, denominator `Σ |dir|·conf·qual·w || 1`. -/
def tfScoreOf (votes : List Vote) (w : Weights) : ℚ :=
  let num := (votes.map (fun v => v.dir * v.conf * qualD v * w v.id)).sum
  let den0 := (votes.map (fun v => |v.dir| * v.conf * qualD v * w v.id)).sum
  let den := if den0 = 0 then 1 else den0
  num / den

/-- `TFVote`. -/
structure TFVote where
  tf : String
  weight : ℚ
  votes : List Vote
  tfScore : ℚ
deriving DecidableEq

/-- The input of one timeframe to `decision`: label, closes, optional weight
override, and the votes the nine indicator evaluators produced for it (the
evaluators are external collaborators; see the header comment). -/
structure TFIn where
  label : String
  closes : List ℚ
  weight : Option ℚ
  votes : List Vote

/-- The options record of `decision` with the source defaults. -/
structure Params where
  confirmOnClose : Bool
  buyThreshold : ℚ
  sellThreshold : ℚ
  basePositionPct : ℚ
  maxPositionPct : ℚ
  minStopATRMultiple : ℚ
  maxStopATRMultiple : ℚ

/-- The default values of the `decision` options. -/
def defaultParams : Params :=
  { confirmOnClose := true
    buyThreshold := 0.15
    sellThreshold := -0.15
    basePositionPct := 0.25
    maxPositionPct := 0.5
    minStopATRMultiple := 1.0
    maxStopATRMultiple := 3.0 }

/-- The per-timeframe weight: `tf.weight ?? tfAutoWeight(tf.label)`. -/
def tfWeightOf (tf : TFIn) : ℚ := tf.weight.getD (tfAutoWeight tf.label)

/-- Builds one `TFVote` (weight, votes, aggregated score) for a timeframe. -/
def mkTFVote (st : EngineState) (tf : TFIn) : TFVote :=
  { tf := tf.label
    weight := tfWeightOf tf
    votes := tf.votes
    tfScore := tfScoreOf tf.votes (buildIndicatorWeightsForTF st tf.label) }

/-- The `tfVotes` list of `decision`. -/
def tfVotesOf (st : EngineState) (tfs : List TFIn) : List TFVote :=
  tfs.map (mkTFVote st)

/-- Lines 450-451: `Σ weight·tfScore / (Σ weight || 1)`. -/
def ensembleScoreOf (tvs : List TFVote) : ℚ :=
  let totalW0 := (tvs.map (fun t => t.weight)).sum
  let totalW := if totalW0 = 0 then 1 else totalW0
  (tvs.map (fun t => t.weight * t.tfScore)).sum / totalW

/-- `Math.sign`. -/
def qsign (x : ℚ) : ℚ := if 0 < x then 1 else if x < 0 then -1 else 0

/-- Lines 457-471: the ensemble confidence. -/
def confidenceOf (st : EngineState) (tvs : List TFVote) (es : ℚ) : ℚ :=
  let parts := (tvs.map (fun t =>
    (t.votes.map (fun v =>
      t.weight * buildIndicatorWeightsForTF st t.tf v.id * |v.dir| * v.conf * qualD v)).sum)).sum
  let maxPoss := (tvs.map (fun t => t.weight)).sum
  let raw := parts / max (1 / 1000000000) maxPoss
  clampQ (0.5 * raw + 0.5 * |es|) 0 1

/-- `tfVotes.filter((t) => t.weight >= 1.4)`: the high-importance timeframes. -/
def hiOf (tvs : List TFVote) : List TFVote :=
  tvs.filter (fun t => decide ((1.4 : ℚ) ≤ t.weight))

/-- Lines 473-478: `hiAgree` — all high-importance timeframes match the
sign of the ensemble with magnitude at least `0.25` (false when there are none). -/
def hiAgreeOf (tvs : List TFVote) (es : ℚ) : Bool :=
  let hi := hiOf tvs
  if hi.isEmpty then false
  else hi.all (fun t =>
    decide (qsign t.tfScore = qsign es) && decide ((0.25 : ℚ) ≤ |t.tfScore|))

/-- Lines 472-483: the ensemble quality. -/
def qualityOf (tvs : List TFVote) (es : ℚ) : ℚ :=
  let q0 : ℚ := 0.85
  let q1 := if (0.4 : ℚ) ≤ |es| then max q0 0.95 else q0
  if hiAgreeOf tvs es = true ∧ (0.6 : ℚ) ≤ |es| then 1 else q1

/-- JavaScript array indexing `l[i]`: `undefined` outside the bounds. -/
def jsIndex (l : List ℚ) (i : ℤ) : Option ℚ :=
  if i < 0 then Option.none else l.get? i.toNat

/-- The index of the reference close: `length - 2` when confirming on close,
else `length - 1`. -/
def lastCloseIndex (confirmOnClose : Bool) (len : ℕ) : ℤ :=
  (len : ℤ) - (if confirmOnClose then 2 else 1)

/-- Insertion into a sorted list (ascending). -/
def insertSorted (x : ℚ) : List ℚ → List ℚ
  | [] => [x]
  | y :: ys => if x ≤ y then x :: y :: ys else y :: insertSorted x ys

/-- Ascending sort, as `stops.sort((a, b) => a - b)`. -/
def sortQ (l : List ℚ) : List ℚ := l.foldr insertSorted []

/-- Lines 501-504: the median of an ascending list — middle element for odd
length, average of the two middle elements for even length. -/
def medianSorted (stops : List ℚ) : Option ℚ :=
  match stops with
  | [] => Option.none
  | _ :: _ =>
    let mid := stops.length / 2
    if stops.length % 2 = 1 then some (stops.getD mid 0)
    else some ((stops.getD (mid - 1) 0 + stops.getD mid 0) / 2)

/-- Lines 488-499: the candidate stops matching the decided direction
(`stopLong` for buy, `stopShort` for sell), across all timeframes. -/
def stopCandidates (d : Dir) (tvs : List TFVote) : List ℚ :=
  tvs.flatMap (fun t => t.votes.filterMap (fun v =>
    match d with
    | .buy => v.stopLong
    | .sell => v.stopShort
    | .none => Option.none))

/-- `allVotes.map(v => v.atr).filter(isNumber)`. -/
def atrsOf (tvs : List TFVote) : List ℚ :=
  (tvs.flatMap (fun t => t.votes)).filterMap (fun v => v.atr)

/-- Lines 497-522: median of the sorted candidates, then the ATR floor — when
the reference close and at least one ATR are available, a stop closer than
`clamp(minStopATRMultiple, 0.5, maxStopATRMultiple) × avgATR` (or a missing
stop) is replaced by the floor distance from the reference close. -/
def stopLossOf (d : Dir) (tvs : List TFVote) (refClose : Option ℚ)
    (atrs : List ℚ) (minStopATRMultiple maxStopATRMultiple : ℚ) : Option ℚ :=
  let stops := sortQ (stopCandidates d tvs)
  let med := medianSorted stops
  match refClose, atrs with
  | some rc, _ :: _ =>
    let avgATR := atrs.sum / (atrs.length : ℚ)
    let minDist := clampQ minStopATRMultiple 0.5 maxStopATRMultiple * avgATR
    match med with
    | Option.none => some (if d = Dir.buy then rc - minDist else rc + minDist)
    | some s =>
      if d = Dir.buy then
        (if rc - s < minDist then some (rc - minDist) else some s)
      else if d = Dir.sell then
        (if s - rc < minDist then some (rc + minDist) else some s)
      else some s
  | _, _ => med

/-- Lines 526-547: the position size as a fraction of the daily limit. -/
def positionPctOf (p : Params) (tfs : List TFIn) (tvs : List TFVote)
    (es conf : ℚ) : ℚ :=
  let closesSample := ((tfs.map (fun tf => tf.closes)).filter
      (fun c => !c.isEmpty)).filterMap
    (fun c => jsIndex c (lastCloseIndex p.confirmOnClose c.length))
  let priceRef := closesSample.head?
  let atrs := atrsOf tvs
  let atrPct :=
    match priceRef with
    | some pr => if pr ≠ 0 ∧ atrs ≠ [] then atrs.sum / (atrs.length : ℚ) / pr else 0
    | Option.none => 0
  let hi := hiOf tvs
  let hiAgree : ℚ :=
    if hi.isEmpty then 0.5
    else ((hi.filter (fun t =>
      decide (qsign t.tfScore = qsign es) && decide ((0.2 : ℚ) ≤ |t.tfScore|))).length : ℚ) /
      (hi.length : ℚ)
  let volFactor := if 0 < atrPct then clampQ (0.02 / max 0.005 atrPct) 0.5 1.5 else 1
  let raw := p.basePositionPct * conf * (0.5 + 0.5 * hiAgree) * volFactor
  clampQ raw 0.05 p.maxPositionPct

/-- The sizing part of `DecisionOut`. -/
structure Sizing where
  positionPctOfDailyLimit : ℚ
  stopLossPrice : Option ℚ
deriving DecidableEq

/-- The fields of `DecisionOut` the verified claims are about (the `weightsUsed`
snapshot and the per-indicator breakdown are logging views and are omitted). -/
structure DecisionOut where
  direction : Dir
  entry : Entry
  directional : ℚ
  confidence : ℚ
  quality : ℚ
  sizing : Option Sizing
  ensembleScore : ℚ
  tfScores : List (String × ℚ)

/-- `EnsembleAdaptive.decision`, taking the per-timeframe vote lists produced
by the indicator evaluators as part of the input. -/
def decision (st : EngineState) (p : Params) (tfs : List TFIn) : DecisionOut :=
  match tfs with
  | [] =>
    { direction := Dir.none, entry := Entry.noTrigger, directional := 0,
      confidence := 0, quality := 0.5, sizing := Option.none,
      ensembleScore := 0, tfScores := [] }
  | tf0 :: _ =>
    let tvs := tfVotesOf st tfs
    let es := ensembleScoreOf tvs
    let finalDir : Dir :=
      if p.buyThreshold ≤ es then Dir.buy
      else if es ≤ p.sellThreshold then Dir.sell
      else Dir.none
    let conf := confidenceOf st tvs es
    let qual := qualityOf tvs es
    let stopLoss :=
      if finalDir = Dir.none then Option.none
      else stopLossOf finalDir tvs
        (jsIndex tf0.closes (lastCloseIndex p.confirmOnClose tf0.closes.length))
        (atrsOf tvs) p.minStopATRMultiple p.maxStopATRMultiple
    let posPct :=
      if finalDir = Dir.none then 0 else positionPctOf p tfs tvs es conf
    { direction := finalDir
      entry := if finalDir ≠ Dir.none then Entry.triggered else Entry.noTrigger
      directional := if finalDir = Dir.buy then 1 else if finalDir = Dir.sell then -1 else 0
      confidence := conf
      quality := qual
      sizing := if finalDir = Dir.none then Option.none
        else some ⟨posPct, stopLoss⟩
      ensembleScore := es
      tfScores := tvs.map (fun t => (t.tf, t.tfScore)) }

/-- The inputs of `ensembleDecision` (`IIndicatorDecisionMin`, restricted to
the fields the function reads). -/
structure DecisionMin where
  id : String
  isValid : Bool
  directional : ℚ
  confidence : ℚ
  quality : Option ℚ
deriving DecidableEq

/-- The strength band of `ensembleDecision`. -/
inductive Band where
  | strongBuy | buy | neutral | sell | strongSell
deriving DecidableEq

/-- The result of `ensembleDecision` (the `thresholds` echo and the
explanation string are presentation only and omitted). -/
structure EDOut where
  finalScore : ℚ
  direction : Dir
  band : Band
deriving DecidableEq

/-- `ensembleDecision` from `src/utils/ensemble-decision.ts`: a weighted
average of `directional × confidence × (quality ?? 1)` over the valid
decisions, with weight `weights[d.id] ?? 0`, then strict threshold
comparisons. -/
def ensembleDecision (decisions : List DecisionMin) (weights : String → Option ℚ)
    (buyThreshold sellThreshold : ℚ) : EDOut :=
  let valid := decisions.filter (fun d => d.isValid)
  let weightedSum := (valid.map (fun d =>
    (weights d.id).getD 0 * (d.directional * d.confidence * (d.quality.getD 1)))).sum
  let weightTotal := (valid.map (fun d => (weights d.id).getD 0)).sum
  let finalScore := if weightTotal = 0 then 0 else weightedSum / weightTotal
  let direction : Dir :=
    if buyThreshold < finalScore then Dir.buy
    else if finalScore < sellThreshold then Dir.sell
    else Dir.none
  let band : Band :=
    if (0.3 : ℚ) ≤ finalScore then Band.strongBuy
    else if (0.15 : ℚ) ≤ finalScore then Band.buy
    else if finalScore ≤ (-0.3 : ℚ) then Band.strongSell
    else if finalScore ≤ (-0.15 : ℚ) then Band.sell
    else Band.neutral
  { finalScore := finalScore, direction := direction, band := band }

/-- The successful payload of `EMAIndicator.calculate` (lines 71-318): its
values are produced by the external `technicalindicators` library together
with indicator-specific arithmetic that is outside the scope of the verified
claim; only the fields the `decision` wrapper reads are kept, and the whole
payload is supplied as a parameter so that the theorems hold for every
possible payload. -/
structure EmaOk where
  entrySignal : Dir
  confidence : ℚ
  quality : ℚ
  stopLong : Option ℚ
  stopShort : Option ℚ
  lastATR : Option ℚ
deriving DecidableEq

/-- The insufficient-data guards of `EMAIndicator.calculate` (lines 59-69):
`!len || len < Math.max(period, slopeWindow) + 2` and then
`lastIndex = (confirmOnClose ? len - 2 : len - 1) < 1`; on success the
externally computed payload `okBody` is returned. -/
def emaCalculate (okBody : EmaOk) (period slopeWindow : ℕ) (confirmOnClose : Bool)
    (closes : List ℚ) : Option EmaOk :=
  let len := closes.length
  if len = 0 ∨ len < max period slopeWindow + 2 then Option.none
  else
    let lastIndex : ℤ := (len : ℤ) - (if confirmOnClose then 2 else 1)
    if lastIndex < 1 then Option.none
    else some okBody

/-- The vote `EMAIndicator.decision` returns (an `IIndicatorDecisionMin`). -/
structure EmaVote where
  id : String
  direction : Dir
  entry : Entry
  directional : ℚ
  confidence : ℚ
  quality : ℚ
  isValid : Bool
deriving DecidableEq

/-- `EMAIndicator.decision` (lines 321-344): an unsuccessful calculation is
returned as an invalid vote (`direction: none, directional: 0, confidence: 0`)
instead of an exception. -/
def emaDecision (okBody : EmaOk) (period slopeWindow : ℕ) (confirmOnClose : Bool)
    (closes : List ℚ) : EmaVote :=
  match emaCalculate okBody period slopeWindow confirmOnClose closes with
  | Option.none =>
    { id := "ema", direction := Dir.none, entry := Entry.noTrigger,
      directional := 0, confidence := 0, quality := 0.5, isValid := false }
  | some r =>
    let dir : ℚ :=
      if r.entrySignal = Dir.buy then 1 else if r.entrySignal = Dir.sell then -1 else 0
    { id := "ema"
      direction := if 0 < dir then Dir.buy else if dir < 0 then Dir.sell else Dir.none
      entry := if dir ≠ 0 then Entry.triggered else Entry.noTrigger
      directional := dir
      confidence := r.confidence
      quality := r.quality
      isValid := true }

/-! Concrete inputs used by witnesses and counterexamples. -/

/-- The engine state at construction: default baseline, empty performance DB. -/
def stDefault : EngineState := ⟨indicatorBaseDefault, fun _ => Option.none⟩

/-- A plain vote with quality 1 and no auxiliary data. -/
def voteBasic (i : Ind) (d c : ℚ) : Vote :=
  ⟨i, d, c, some 1, Option.none, Option.none, Option.none, Option.none, true⟩

/-- A 5-minute timeframe whose two votes aggregate to `+0.6`. -/
def tfA5m : TFIn := ⟨"5m", [100, 100], Option.none,
  [voteBasic .ema 1 1, voteBasic .macd (-1) (1/4)]⟩

/-- A 1-hour timeframe whose two votes aggregate to `+0.6`. -/
def tfA1h : TFIn := ⟨"1h", [100, 100], Option.none,
  [voteBasic .ema 1 1, voteBasic .macd (-1) (1/4)]⟩

/-- A daily timeframe whose two votes aggregate to `+0.6`. -/
def tfA1d : TFIn := ⟨"1D", [100, 100], Option.none,
  [voteBasic .ema 1 1, voteBasic .macd (-1) (5/18)]⟩

/-- A 1-hour timeframe whose two votes aggregate to `+0.3`. -/
def tfB1h : TFIn := ⟨"1h", [100, 100], Option.none,
  [voteBasic .ema 1 1, voteBasic .macd (-1) (7/13)]⟩

/-- A daily timeframe whose two votes aggregate to `+0.3`. -/
def tfB1d : TFIn := ⟨"1D", [100, 100], Option.none,
  [voteBasic .ema 1 1, voteBasic .macd (-1) (70/117)]⟩

/-- A nonnegative baseline concentrated on `ema`. -/
def c1Base : Weights := fun k => if k = Ind.ema then 1 else 0

/-- A baseline with a negative entry that drives the adapted sum below zero. -/
def c1BaseNeg : Weights := fun k => if k = Ind.ema then -1 else 0

/-- A valid vote with directional `+1` and confidence `1/2`. -/
def c2ValidVote : Vote := voteBasic .ema 1 (1/2)

/-- An invalid vote (the contract forces directional 0 and confidence 0). -/
def c2InvalidVote : Vote :=
  ⟨.macd, 0, 0, some 1, Option.none, Option.none, Option.none, Option.none, false⟩

/-- A uniform weight map. -/
def c2w : Weights := fun _ => 1/9

/-- A single valid decision whose contribution is exactly the buy threshold. -/
def c4Decision : DecisionMin := ⟨"x", true, 0.15, 1, some 1⟩

/-- A weight map giving the single decision weight 1. -/
def c4Weights : String → Option ℚ := fun j => if j = "x" then some 1 else Option.none

/-- A performance database with one record. -/
def c5db : PerfDB := fun j => if j = "ema" then some ⟨0.7, 0.5, 3⟩ else Option.none

/-- An arbitrary successful EMA payload. -/
def emaOkSample : EmaOk := ⟨Dir.buy, 1, 1, Option.none, Option.none, Option.none⟩

/-! Helper lemmas. -/

theorem le_clampQ (x a b : ℚ) : a ≤ clampQ x a b := le_max_left a (min b x)

theorem clampQ_le (x a b : ℚ) (hab : a ≤ b) : clampQ x a b ≤ b :=
  max_le hab (min_le_left b x)

theorem perfMultiplier_bounds (db : PerfDB) (id : String) :
    maxCut ≤ perfMultiplier db id ∧ perfMultiplier db id ≤ maxBoost := by
  unfold perfMultiplier
  cases h : db id with
  | none => refine ⟨?_, ?_⟩ <;> norm_num [maxCut, maxBoost]
  | some p =>
    exact ⟨le_clampQ _ _ _, clampQ_le _ _ _ (by norm_num [maxCut, maxBoost])⟩

theorem maxCut_pos : (0 : ℚ) < maxCut := by norm_num [maxCut]

theorem minWeight_pos : (0 : ℚ) < minWeight := by norm_num [minWeight]

theorem sumW_le_sumW (f g : Weights) (h : ∀ k, f k ≤ g k) : sumW f ≤ sumW g := by
  unfold sumW
  have h1 := h .ema; have h2 := h .macd; have h3 := h .ichimoku
  have h4 := h .rsi; have h5 := h .adx; have h6 := h .bollinger
  have h7 := h .vwap; have h8 := h .alligator; have h9 := h .volume
  linarith

theorem sumW_const (c : ℚ) : sumW (fun _ => c) = 9 * c := by
  simp only [sumW]; ring

theorem sumFloored_pos (w : Weights) : 0 < sumFloored w := by
  have h : sumW (fun _ => minWeight) ≤ sumFloored w :=
    sumW_le_sumW _ _ (fun k => le_max_left _ _)
  rw [sumW_const] at h
  have := minWeight_pos
  linarith

theorem normalizeWeights_of_pos (w : Weights) (h : 0 < sumW w) :
    normalizeWeights w = fun k => max minWeight (w k / sumW w) / sumFloored w := by
  unfold normalizeWeights sumFloored
  rw [if_neg (not_le.mpr h)]

theorem sumW_normalize (w : Weights) (h : 0 < sumW w) :
    sumW (normalizeWeights w) = 1 := by
  rw [normalizeWeights_of_pos w h]
  have hs2 := sumFloored_pos w
  have expand : sumW (fun k => max minWeight (w k / sumW w) / sumFloored w) =
      sumFloored w / sumFloored w := by
    simp only [sumW, sumFloored]
    ring
  rw [expand, div_self (ne_of_gt hs2)]

theorem sumFloored_le (w : Weights) (h : 0 < sumW w) (hn : ∀ k, 0 ≤ w k) :
    sumFloored w ≤ 9 * minWeight + 1 := by
  have step : sumFloored w ≤ sumW (fun k => minWeight + w k / sumW w) := by
    unfold sumFloored
    refine sumW_le_sumW _ _ (fun k => ?_)
    have hx : 0 ≤ w k / sumW w := div_nonneg (hn k) h.le
    have := minWeight_pos
    exact max_le (by linarith) (by linarith)
  have expand : sumW (fun k => minWeight + w k / sumW w) =
      9 * minWeight + sumW w / sumW w := by
    simp only [sumW]
    ring
  rw [expand, div_self (ne_of_gt h)] at step
  exact step

theorem normalizeWeights_floor (w : Weights) (h : 0 < sumW w) (hn : ∀ k, 0 ≤ w k)
    (k : Ind) : minWeight / (9 * minWeight + 1) ≤ normalizeWeights w k := by
  rw [normalizeWeights_of_pos w h]
  have hs2 := sumFloored_pos w
  have hs2le := sumFloored_le w h hn
  have hd : (0 : ℚ) < 9 * minWeight + 1 := by norm_num [minWeight]
  rw [div_le_div_iff₀ hd hs2]
  have hmax : minWeight ≤ max minWeight (w k / sumW w) := le_max_left _ _
  nlinarith [minWeight_pos]

theorem normalizeWeights_pos_entry (w : Weights) (h : 0 < sumW w)
    (hn : ∀ k, 0 ≤ w k) (k : Ind) : 0 < normalizeWeights w k := by
  have hf := normalizeWeights_floor w h hn k
  have : (0 : ℚ) < minWeight / (9 * minWeight + 1) := by norm_num [minWeight]
  linarith

theorem adaptRaw_nonneg (interval : String) (base : Weights)
    (hb : ∀ k, 0 ≤ base k) : ∀ k, 0 ≤ adaptRaw interval base k := by
  intro k
  cases hI : isIntra interval <;> cases k <;>
    simp only [adaptRaw, hI, Bool.false_eq_true, if_false, if_true] <;>
    first
      | exact le_max_left 0 _
      | linarith [hb Ind.ema, hb Ind.macd, hb Ind.ichimoku, hb Ind.rsi, hb Ind.adx,
          hb Ind.bollinger, hb Ind.vwap, hb Ind.alligator, hb Ind.volume]

theorem adaptRaw_sum_pos (interval : String) (base : Weights)
    (hb : ∀ k, 0 ≤ base k) : 0 < sumW (adaptRaw interval base) := by
  have hn := adaptRaw_nonneg interval base hb
  have h1 := hn .ema; have h2 := hn .macd; have h3 := hn .ichimoku
  have h4 := hn .rsi; have h5 := hn .adx; have h6 := hn .bollinger
  have h7 := hn .vwap; have h8 := hn .alligator; have h9 := hn .volume
  cases hI : isIntra interval
  · have he : adaptRaw interval base .ema = base .ema + 0.02 := by
      simp [adaptRaw, hI]
    have := hb .ema
    unfold sumW
    rw [he]
    linarith
  · have hv : adaptRaw interval base .vwap = base .vwap + 0.03 := by
      simp [adaptRaw, hI]
    have := hb .vwap
    unfold sumW
    rw [hv]
    linarith

theorem adaptWeights_sum_one (interval : String) (base : Weights)
    (hb : ∀ k, 0 ≤ base k) : sumW (adaptWeightsByInterval interval base) = 1 :=
  sumW_normalize _ (adaptRaw_sum_pos interval base hb)

theorem adaptWeights_pos (interval : String) (base : Weights)
    (hb : ∀ k, 0 ≤ base k) (k : Ind) : 0 < adaptWeightsByInterval interval base k :=
  normalizeWeights_pos_entry _ (adaptRaw_sum_pos interval base hb)
    (adaptRaw_nonneg interval base hb) k

theorem sum_map_filter_valid (f : Vote → ℚ) (votes : List Vote)
    (h : ∀ v ∈ votes, v.isValid = false → f v = 0) :
    ((votes.filter (fun v => v.isValid)).map f).sum = (votes.map f).sum := by
  induction votes with
  | nil => rfl
  | cons v t ih =>
    have ht : ∀ u ∈ t, u.isValid = false → f u = 0 :=
      fun u hu => h u (List.mem_cons_of_mem v hu)
    by_cases hv : v.isValid = true
    · rw [List.filter_cons_of_pos (by simpa using hv)]
      simp only [List.map_cons, List.sum_cons, ih ht]
    · have hv0 : f v = 0 := h v (List.mem_cons_self v t) (by simpa using hv)
      rw [List.filter_cons_of_neg (by simpa using hv)]
      simp only [List.map_cons, List.sum_cons, ih ht, hv0, zero_add]

theorem abs_sum_le_sum_of_abs_le (l : List Vote) (f g : Vote → ℚ)
    (h : ∀ v ∈ l, |f v| ≤ g v) : |(l.map f).sum| ≤ (l.map g).sum := by
  induction l with
  | nil => simp
  | cons v t ih =>
    have hv := h v (List.mem_cons_self v t)
    have ht := ih (fun u hu => h u (List.mem_cons_of_mem v hu))
    simp only [List.map_cons, List.sum_cons]
    calc |f v + (t.map f).sum| ≤ |f v| + |(t.map f).sum| := abs_add _ _
      _ ≤ g v + (t.map g).sum := add_le_add hv ht

theorem updateWithOutcome_not_mem (o : ℚ) (ids : List String) :
    ∀ (db : PerfDB) (id : String), id ∉ ids → updateWithOutcome o ids db id = db id := by
  induction ids with
  | nil => intro db id _; rfl
  | cons a t ih =>
    intro db id h
    have h1 : id ≠ a := fun e => h (e ▸ List.mem_cons_self a t)
    have h2 : id ∉ t := fun m => h (List.mem_cons_of_mem a m)
    have step : updateWithOutcome o (a :: t) db =
        updateWithOutcome o t (fun j =>
          if j = a then some (stepOutcome o ((db a).getD defaultPerf)) else db j) := rfl
    rw [step, ih _ id h2]
    simp [h1]

/-! Claim theorems. -/

set_option maxRecDepth 4000

/-- C1 (counterexample): the claim "every effective weight is at least the
floor 0.02, even for zero or negative inputs" fails on the code.  With the
nonnegative baseline `c1Base` (all weight on `ema`) and label `"5m"`, the
`volume` entry of `buildIndicatorWeightsForTF` ends strictly below the floor,
because the floor is applied before the final renormalization; and with the
negative baseline `c1BaseNeg`, `normalizeWeights` returns its input unchanged,
so the weights do not sum to 1 and `ema` stays far below the floor. -/
theorem spec_c1_counterexample :
    buildIndicatorWeightsForTF ⟨c1Base, fun _ => Option.none⟩ "5m" Ind.volume < minWeight ∧
    sumW (buildIndicatorWeightsForTF ⟨c1BaseNeg, fun _ => Option.none⟩ "5m") ≠ 1 ∧
    buildIndicatorWeightsForTF ⟨c1BaseNeg, fun _ => Option.none⟩ "5m" Ind.ema < minWeight := by
  refine ⟨?_, ?_, ?_⟩ <;> with_unfolding_all decide

/-- C1 (amended): for every baseline map with nonnegative values and every
timeframe label (and any performance database), the effective weight vector
produced by `buildIndicatorWeightsForTF` sums to exactly 1, and every entry is
at least `0.02 / (1 + 9 × 0.02) = 1/59` (strictly positive); the floor 0.02
itself is only guaranteed before the final renormalization, and negative
baselines can bypass normalization entirely. -/
theorem spec_c1_amended (base : Weights) (hb : ∀ k, 0 ≤ base k) (label : String)
    (db : PerfDB) :
    sumW (buildIndicatorWeightsForTF ⟨base, db⟩ label) = 1 ∧
    ∀ k, 1 / 59 ≤ buildIndicatorWeightsForTF ⟨base, db⟩ label k := by
  have hbuild : buildIndicatorWeightsForTF ⟨base, db⟩ label =
      normalizeWeights (fun k =>
        adaptWeightsByInterval label base k * perfMultiplier db k.key) := rfl
  have hadapt_pos : ∀ k, 0 < adaptWeightsByInterval label base k :=
    adaptWeights_pos label base hb
  have hu_nonneg : ∀ k, 0 ≤ adaptWeightsByInterval label base k * perfMultiplier db k.key := by
    intro k
    have hpm := (perfMultiplier_bounds db k.key).1
    have := maxCut_pos
    exact mul_nonneg (hadapt_pos k).le (by linarith)
  have hu_pos : 0 < sumW (fun k =>
      adaptWeightsByInterval label base k * perfMultiplier db k.key) := by
    have hema : 0 < adaptWeightsByInterval label base Ind.ema *
        perfMultiplier db Ind.ema.key := by
      have hpm := (perfMultiplier_bounds db Ind.ema.key).1
      have := maxCut_pos
      exact mul_pos (hadapt_pos Ind.ema) (by linarith)
    have h1 := hu_nonneg .macd; have h2 := hu_nonneg .ichimoku
    have h3 := hu_nonneg .rsi; have h4 := hu_nonneg .adx
    have h5 := hu_nonneg .bollinger; have h6 := hu_nonneg .vwap
    have h7 := hu_nonneg .alligator; have h8 := hu_nonneg .volume
    simp only [sumW]
    linarith
  constructor
  · rw [hbuild]
    exact sumW_normalize _ hu_pos
  · intro k
    rw [hbuild]
    have hf := normalizeWeights_floor _ hu_pos hu_nonneg k
    have : minWeight / (9 * minWeight + 1) = 1 / 59 := by norm_num [minWeight]
    linarith [hf, this.symm.le]

/-- C1 (witness): the amended theorem applied to the default baseline and the
label `"15m"` — the weights sum to 1 and the `volume` entry is at least
`1/59`. -/
theorem spec_c1_witness :
    sumW (buildIndicatorWeightsForTF ⟨indicatorBaseDefault, fun _ => Option.none⟩ "15m") = 1 ∧
    1 / 59 ≤ buildIndicatorWeightsForTF ⟨indicatorBaseDefault, fun _ => Option.none⟩ "15m"
      Ind.volume := by
  have hb : ∀ k, 0 ≤ indicatorBaseDefault k := by
    intro k; cases k <;> norm_num [indicatorBaseDefault]
  exact ⟨(spec_c1_amended indicatorBaseDefault hb "15m" (fun _ => Option.none)).1,
    (spec_c1_amended indicatorBaseDefault hb "15m" (fun _ => Option.none)).2 Ind.volume⟩

/-- C5: for every performance database (in particular after any sequence of
`updateWithOutcome` calls) and every indicator id, the performance multiplier
stays inside `[0.65, 1.35]`; it is exactly `1.0` when the indicator has no
record, and with a record it is the clamp to `[0.65, 1.35]` of
`1 + mix × (1.35 − 1)` when `mix ≥ 0`, else `1 + mix × (1 − 0.65)`, with
`mix = 0.6 × ((ewmaWin − 0.5) × 2) + 0.4 × (clamp(ewmaEdge, −1.5, 1.5) / 1.5)`. -/
theorem spec_c5 (db : PerfDB) (id : String) :
    ((0.65 : ℚ) ≤ perfMultiplier db id ∧ perfMultiplier db id ≤ (1.35 : ℚ)) ∧
    (db id = Option.none → perfMultiplier db id = 1) ∧
    (∀ p, db id = some p →
      perfMultiplier db id =
        clampQ
          (if 0 ≤ 0.6 * ((p.ewmaWin - 0.5) * 2) + 0.4 * (clampQ p.ewmaEdge (-1.5) 1.5 / 1.5)
           then 1 + (0.6 * ((p.ewmaWin - 0.5) * 2) +
              0.4 * (clampQ p.ewmaEdge (-1.5) 1.5 / 1.5)) * (1.35 - 1)
           else 1 + (0.6 * ((p.ewmaWin - 0.5) * 2) +
              0.4 * (clampQ p.ewmaEdge (-1.5) 1.5 / 1.5)) * (1 - 0.65))
          0.65 1.35) := by
  refine ⟨?_, ?_, ?_⟩
  · have h := perfMultiplier_bounds db id
    constructor
    · have : maxCut = (0.65 : ℚ) := by norm_num [maxCut]
      linarith [h.1, this.ge]
    · have : maxBoost = (1.35 : ℚ) := by norm_num [maxBoost]
      linarith [h.2, this.le]
  · intro h
    unfold perfMultiplier
    rw [h]
    norm_num
  · intro p h
    unfold perfMultiplier
    rw [h]
    norm_num [maxCut, maxBoost]

/-- C5 (witness): the multiplier facts at a concrete database — the empty
record gives 1, and a populated record stays within the bounds. -/
theorem spec_c5_witness :
    perfMultiplier (fun _ => Option.none) "macd" = 1 ∧
    (0.65 : ℚ) ≤ perfMultiplier c5db "ema" ∧ perfMultiplier c5db "ema" ≤ (1.35 : ℚ) :=
  ⟨(spec_c5 (fun _ => Option.none) "macd").2.1 rfl,
    ((spec_c5 c5db "ema").1).1, ((spec_c5 c5db "ema").1).2⟩

/-- C6: `updateWithOutcome o ids` leaves every id outside `ids` unchanged, and
updates each id in a duplicate-free `ids` by exactly one EWMA step with
`α = 0.12` — starting from the lazily created default record
`{winRateEWMA: 0.5, edgeEWMA: 0, n: 0}` when the id was unknown — where one
step sends `(w, e, n)` to `((1−α)·w + α·[o > 0], (1−α)·e + α·o, n+1)`. -/
theorem spec_c6 (o : ℚ) (ids : List String) (db : PerfDB) (id : String) :
    (id ∉ ids → updateWithOutcome o ids db id = db id) ∧
    (ids.Nodup → id ∈ ids →
      updateWithOutcome o ids db id = some (stepOutcome o ((db id).getD defaultPerf))) ∧
    (∀ r : Perf, stepOutcome o r =
      ⟨(1 - alphaQ) * r.ewmaWin + alphaQ * (if 0 < o then 1 else 0),
       (1 - alphaQ) * r.ewmaEdge + alphaQ * o, r.n + 1⟩) ∧
    defaultPerf = ⟨0.5, 0, 0⟩ := by
  refine ⟨updateWithOutcome_not_mem o ids db id, ?_, fun r => rfl, rfl⟩
  induction ids generalizing db with
  | nil => intro _ h; cases h
  | cons a t ih =>
    intro hnd hmem
    have step : updateWithOutcome o (a :: t) db =
        updateWithOutcome o t (fun j =>
          if j = a then some (stepOutcome o ((db a).getD defaultPerf)) else db j) := rfl
    rcases List.mem_cons.mp hmem with he | ht
    · subst he
      have hnotin : id ∉ t := (List.nodup_cons.mp hnd).1
      rw [step, updateWithOutcome_not_mem o t _ id hnotin]
      simp
    · have hne : id ≠ a := by
        rintro rfl
        exact (List.nodup_cons.mp hnd).1 ht
      rw [step, ih _ (List.nodup_cons.mp hnd).2 ht]
      simp [hne]

/-- C6 (witness): recording outcome `+1` for `["ema"]` on the empty database
creates exactly one fresh record, advanced by one EWMA step, and leaves
`"macd"` untouched. -/
theorem spec_c6_witness :
    updateWithOutcome 1 ["ema"] (fun _ => Option.none) "ema" =
      some (stepOutcome 1 defaultPerf) ∧
    updateWithOutcome 1 ["ema"] (fun _ => Option.none) "macd" = Option.none := by
  constructor
  · have h := (spec_c6 1 ["ema"] (fun _ => Option.none) "ema").2.1
      (by simp) (by simp)
    simpa using h
  · exact (spec_c6 1 ["ema"] (fun _ => Option.none) "macd").1 (by simp)

/-- C2: the per-timeframe aggregated score.  Under the vote contract (an
invalid vote carries `directional = 0`, confidences and qualities are
nonnegative, weights are nonnegative — quality defaulting to 0.9 when
missing), the score equals
`Σ dir·conf·qual·w / Σ |dir|·conf·qual·w` taken over the valid votes only
(invalid votes contribute exactly 0 to both sums), and it is 0 whenever that
denominator is 0. -/
theorem spec_c2 (votes : List Vote) (w : Weights)
    (hinv : ∀ v ∈ votes, v.isValid = false → v.dir = 0)
    (hc : ∀ v ∈ votes, 0 ≤ v.conf)
    (hq : ∀ v ∈ votes, 0 ≤ qualD v)
    (hw : ∀ k, 0 ≤ w k) :
    tfScoreOf votes w =
      (if (((votes.filter (fun v => v.isValid)).map
              (fun v => |v.dir| * v.conf * qualD v * w v.id)).sum = 0)
       then 0
       else ((votes.filter (fun v => v.isValid)).map
              (fun v => v.dir * v.conf * qualD v * w v.id)).sum /
            ((votes.filter (fun v => v.isValid)).map
              (fun v => |v.dir| * v.conf * qualD v * w v.id)).sum) := by
  have hnum : ((votes.filter (fun v => v.isValid)).map
      (fun v => v.dir * v.conf * qualD v * w v.id)).sum =
      (votes.map (fun v => v.dir * v.conf * qualD v * w v.id)).sum := by
    refine sum_map_filter_valid _ votes (fun v hv hbad => ?_)
    rw [hinv v hv hbad]
    ring
  have hden : ((votes.filter (fun v => v.isValid)).map
      (fun v => |v.dir| * v.conf * qualD v * w v.id)).sum =
      (votes.map (fun v => |v.dir| * v.conf * qualD v * w v.id)).sum := by
    refine sum_map_filter_valid _ votes (fun v hv hbad => ?_)
    rw [hinv v hv hbad]
    simp
  rw [hnum, hden]
  have habs : ∀ v ∈ votes,
      |v.dir * v.conf * qualD v * w v.id| = |v.dir| * v.conf * qualD v * w v.id := by
    intro v hv
    rw [abs_mul, abs_mul, abs_mul, abs_of_nonneg (hw v.id),
      abs_of_nonneg (hq v hv), abs_of_nonneg (hc v hv)]
  simp only [tfScoreOf]
  by_cases hd : (votes.map (fun v => |v.dir| * v.conf * qualD v * w v.id)).sum = 0
  · rw [if_pos hd, if_pos hd]
    have hb : |(votes.map (fun v => v.dir * v.conf * qualD v * w v.id)).sum| ≤
        (votes.map (fun v => |v.dir| * v.conf * qualD v * w v.id)).sum :=
      abs_sum_le_sum_of_abs_le votes _ _ (fun v hv => (habs v hv).le)
    rw [hd] at hb
    have : (votes.map (fun v => v.dir * v.conf * qualD v * w v.id)).sum = 0 :=
      abs_eq_zero.mp (le_antisymm hb (abs_nonneg _))
    rw [this]
    norm_num
  · rw [if_neg hd, if_neg hd]

/-- C2 (witness): one real vote plus one invalid vote — the aggregated score
equals the solo contribution of the real vote (here `+1`, the sign of its own
conviction). -/
theorem spec_c2_witness : tfScoreOf [c2ValidVote, c2InvalidVote] c2w = 1 := by
  have h := spec_c2 [c2ValidVote, c2InvalidVote] c2w
    (by intro v hv; fin_cases hv <;> simp [c2ValidVote, c2InvalidVote, voteBasic])
    (by intro v hv; fin_cases hv <;> norm_num [c2ValidVote, c2InvalidVote, voteBasic])
    (by intro v hv; fin_cases hv <;> norm_num [c2ValidVote, c2InvalidVote, voteBasic, qualD])
    (by intro k; norm_num [c2w])
  rw [h]
  with_unfolding_all decide

/-- C3: for every non-empty timeframe list whose total weight is non-zero, the
ensemble score returned by `decision` is the importance-weighted average of the
per-timeframe aggregated scores divided by the sum of the timeframe weights,
where the weight of a timeframe is its explicit override or else derived from its
label by the fixed table daily = 2.0, 4h = 1.6, 1h = 1.4, 30m = 1.2,
15m = 1.1, anything else = 1.0. -/
theorem spec_c3 :
    (∀ (st : EngineState) (p : Params) (tfs : List TFIn), tfs ≠ [] →
      (tfs.map tfWeightOf).sum ≠ 0 →
      (decision st p tfs).ensembleScore =
        (tfs.map (fun tf =>
          tfWeightOf tf * tfScoreOf tf.votes (buildIndicatorWeightsForTF st tf.label))).sum /
        (tfs.map tfWeightOf).sum) ∧
    tfAutoWeight "1D" = 2 ∧ tfAutoWeight "1d" = 2 ∧ tfAutoWeight "daily" = 2 ∧
    tfAutoWeight "D" = 2 ∧ tfAutoWeight "4h" = 1.6 ∧ tfAutoWeight "1h" = 1.4 ∧
    tfAutoWeight "30m" = 1.2 ∧ tfAutoWeight "15m" = 1.1 ∧ tfAutoWeight "5m" = 1 ∧
    tfAutoWeight "3m" = 1 ∧ tfAutoWeight "1m" = 1 := by
  refine ⟨?_, ?_, ?_, ?_, ?_, ?_, ?_, ?_, ?_, ?_, ?_, ?_⟩
  · intro st p tfs hne hW
    cases tfs with
    | nil => exact absurd rfl hne
    | cons tf0 rest =>
      have base : (decision st p (tf0 :: rest)).ensembleScore =
          ensembleScoreOf (tfVotesOf st (tf0 :: rest)) := rfl
      rw [base]
      simp only [ensembleScoreOf, tfVotesOf, List.map_map]
      have e1 : ((fun t : TFVote => t.weight) ∘ mkTFVote st) = tfWeightOf := rfl
      have e2 : ((fun t : TFVote => t.weight * t.tfScore) ∘ mkTFVote st) =
          (fun tf => tfWeightOf tf *
            tfScoreOf tf.votes (buildIndicatorWeightsForTF st tf.label)) := rfl
      rw [e1, e2, if_neg hW]
  all_goals with_unfolding_all decide

/-- C3 (witness): the formula applied to a concrete two-timeframe input —
weights auto-derived as 1.4 (1h) and 2.0 (daily), per-timeframe scores `+0.3`,
ensemble score `(1.4×0.3 + 2×0.3)/3.4 = 0.3`. -/
theorem spec_c3_witness :
    (decision stDefault defaultParams [tfB1h, tfB1d]).ensembleScore = 3 / 10 := by
  have h := spec_c3.1 stDefault defaultParams [tfB1h, tfB1d]
    (List.cons_ne_nil _ _) (by with_unfolding_all decide)
  rw [h]
  with_unfolding_all decide

/-- C4 (counterexample): the claim that a score exactly equal to a threshold
is inclusive "in both EnsembleAdaptive.decision and ensembleDecision" fails:
`ensembleDecision` compares strictly (`>` / `<`), so one valid decision whose
weighted contribution is exactly the default buy threshold 0.15 produces a
final score of exactly 0.15 and direction `none`, not `buy`. -/
theorem spec_c4_counterexample :
    (ensembleDecision [c4Decision] c4Weights 0.15 (-0.15)).finalScore = 0.15 ∧
    (ensembleDecision [c4Decision] c4Weights 0.15 (-0.15)).direction = Dir.none := by
  constructor <;> with_unfolding_all decide

/-- C4 (amended): `EnsembleAdaptive.decision` uses the inclusive comparisons
(`buy` iff score ≥ buyThreshold, `sell` iff score ≤ sellThreshold, otherwise
`none`), while `ensembleDecision` uses strict comparisons (`buy` iff
score > buyThreshold, `sell` iff score < sellThreshold, otherwise `none` — so
a score exactly at a threshold yields `none` there); in both, every score
strictly between the thresholds yields `none`, and the default thresholds are
`+0.15` / `−0.15`. -/
theorem spec_c4_amended :
    (∀ (st : EngineState) (p : Params) (tfs : List TFIn), tfs ≠ [] →
      (decision st p tfs).direction =
        (if p.buyThreshold ≤ (decision st p tfs).ensembleScore then Dir.buy
         else if (decision st p tfs).ensembleScore ≤ p.sellThreshold then Dir.sell
         else Dir.none)) ∧
    (∀ (ds : List DecisionMin) (w : String → Option ℚ) (buyT sellT : ℚ),
      (ensembleDecision ds w buyT sellT).direction =
        (if buyT < (ensembleDecision ds w buyT sellT).finalScore then Dir.buy
         else if (ensembleDecision ds w buyT sellT).finalScore < sellT then Dir.sell
         else Dir.none)) ∧
    defaultParams.buyThreshold = 0.15 ∧ defaultParams.sellThreshold = -0.15 := by
  refine ⟨?_, fun ds w buyT sellT => rfl, rfl, rfl⟩
  intro st p tfs hne
  cases tfs with
  | nil => exact absurd rfl hne
  | cons tf0 rest => rfl

/-- C4 (witness): the inclusive rule applied to a concrete input whose
ensemble score `0.3` is at least the default buy threshold, giving `buy`. -/
theorem spec_c4_witness :
    (decision stDefault defaultParams [tfB1h, tfB1d]).direction = Dir.buy := by
  have h := spec_c4_amended.1 stDefault defaultParams [tfB1h, tfB1d]
    (List.cons_ne_nil _ _)
  rw [h]
  with_unfolding_all decide

/-- C10: for every input — the empty timeframe list included — the returned decision satisfies:
entry state is `triggered` exactly when the direction is not `none`, and the
sizing field (position fraction and stop price) is present exactly when the
direction is not `none`. -/
theorem spec_c10 (st : EngineState) (p : Params) (tfs : List TFIn) :
    ((decision st p tfs).entry = Entry.triggered ↔
      (decision st p tfs).direction ≠ Dir.none) ∧
    ((decision st p tfs).sizing.isSome ↔ (decision st p tfs).direction ≠ Dir.none) := by
  cases tfs with
  | nil => constructor <;> simp [decision]
  | cons tf0 rest =>
    by_cases h1 : p.buyThreshold ≤ ensembleScoreOf (tfVotesOf st (tf0 :: rest))
    · constructor <;> simp [decision, h1]
    · by_cases h2 : ensembleScoreOf (tfVotesOf st (tf0 :: rest)) ≤ p.sellThreshold
      · constructor <;> simp [decision, h1, h2]
      · constructor <;> simp [decision, h1, h2]

/-- C7: stop-loss selection.  With a decided direction, an available reference
close and at least one indicator ATR: the chosen stop is the median of the
direction-matching candidate stops (odd count: middle element; even count:
average of the two middle elements — `[99,100,105] ↦ 100`,
`[99,100,105,110] ↦ 102.5`) whenever that median is at least
`clamp(minStopATRMultiple, 0.5, maxStopATRMultiple) × averageATR` away from
the reference close; when there are no candidates, or the median is closer
than that floor distance, the stop is placed at exactly the floor distance
below (buy) or above (sell) the reference close. -/
theorem spec_c7 :
    (∀ (d : Dir) (tvs : List TFVote) (rc : ℚ) (atrs : List ℚ) (minM maxM : ℚ),
      d ≠ Dir.none → atrs ≠ [] →
      (stopCandidates d tvs = [] →
        stopLossOf d tvs (some rc) atrs minM maxM =
          some (if d = Dir.buy
            then rc - clampQ minM 0.5 maxM * (atrs.sum / (atrs.length : ℚ))
            else rc + clampQ minM 0.5 maxM * (atrs.sum / (atrs.length : ℚ)))) ∧
      (∀ m, medianSorted (sortQ (stopCandidates d tvs)) = some m →
        (d = Dir.buy → ¬(rc - m < clampQ minM 0.5 maxM * (atrs.sum / (atrs.length : ℚ))) →
          stopLossOf d tvs (some rc) atrs minM maxM = some m) ∧
        (d = Dir.buy → rc - m < clampQ minM 0.5 maxM * (atrs.sum / (atrs.length : ℚ)) →
          stopLossOf d tvs (some rc) atrs minM maxM =
            some (rc - clampQ minM 0.5 maxM * (atrs.sum / (atrs.length : ℚ)))) ∧
        (d = Dir.sell → ¬(m - rc < clampQ minM 0.5 maxM * (atrs.sum / (atrs.length : ℚ))) →
          stopLossOf d tvs (some rc) atrs minM maxM = some m) ∧
        (d = Dir.sell → m - rc < clampQ minM 0.5 maxM * (atrs.sum / (atrs.length : ℚ)) →
          stopLossOf d tvs (some rc) atrs minM maxM =
            some (rc + clampQ minM 0.5 maxM * (atrs.sum / (atrs.length : ℚ)))))) ∧
    medianSorted (sortQ [99, 100, 105]) = some 100 ∧
    medianSorted (sortQ [99, 100, 105, 110]) = some (205 / 2) := by
  refine ⟨?_, by with_unfolding_all decide, by with_unfolding_all decide⟩
  intro d tvs rc atrs minM maxM hd hatr
  cases atrs with
  | nil => exact absurd rfl hatr
  | cons a as =>
    constructor
    · intro hcand
      have hmed : medianSorted (sortQ (stopCandidates d tvs)) = Option.none := by
        rw [hcand]; rfl
      simp only [stopLossOf, hmed]
    · intro m hm
      refine ⟨?_, ?_, ?_, ?_⟩
      · intro hb hfar
        subst hb
        simp only [stopLossOf, hm]
        rw [if_pos trivial, if_neg hfar]
      · intro hb hclose
        subst hb
        simp only [stopLossOf, hm]
        rw [if_pos trivial, if_pos hclose]
      · intro hs hfar
        subst hs
        simp only [stopLossOf, hm]
        rw [if_pos trivial, if_neg hfar]
        simp
      · intro hs hclose
        subst hs
        simp only [stopLossOf, hm]
        rw [if_pos trivial, if_pos hclose]
        simp

/-- C7 (witness): the floor branch at a concrete input — a buy decision with
no candidate stops, reference close 100, one ATR of 2 and multiples 1/3 gives
a stop at `100 − 1×2 = 98`. -/
theorem spec_c7_witness :
    stopLossOf Dir.buy [] (some 100) [2] 1 3 = some 98 := by
  have h := ((spec_c7.1 Dir.buy [] 100 [2] 1 3 (by decide)
    (List.cons_ne_nil _ _)).1) rfl
  rw [h]
  with_unfolding_all decide

/-- C8 (counterexample): the claim "quality is raised to 1.0 whenever every
high-importance timeframe agrees in sign with the ensemble score with
per-timeframe magnitude ≥ 0.25" fails: the code additionally requires
`|ensembleScore| ≥ 0.6`.  With both high-importance timeframes (1h weight 1.4,
daily weight 2.0) scoring `+0.3` — so `hiAgree` holds — the ensemble score is
`0.3` and the returned quality is `0.85`, not `1.0`. -/
theorem spec_c8_counterexample :
    hiAgreeOf (tfVotesOf stDefault [tfB1h, tfB1d])
      ((decision stDefault defaultParams [tfB1h, tfB1d]).ensembleScore) = true ∧
    (decision stDefault defaultParams [tfB1h, tfB1d]).ensembleScore = 3 / 10 ∧
    (decision stDefault defaultParams [tfB1h, tfB1d]).quality = 0.85 := by
  refine ⟨?_, ?_, ?_⟩ <;> with_unfolding_all decide

/-- C8 (amended): the quality starts at 0.85, is 0.95 whenever
`|ensembleScore| ≥ 0.4`, and is raised to 1.0 exactly when every
high-importance timeframe (weight ≥ 1.4) agrees in sign with the ensemble
score with per-timeframe magnitude ≥ 0.25 AND `|ensembleScore| ≥ 0.6`; the
unanimous-agreement scenario (5m/1h/daily each scoring `+0.6`, auto-derived
weights 1.0/1.4/2.0) gives ensemble score 0.6, direction `buy` and quality
1.0. -/
theorem spec_c8_amended :
    (∀ (tvs : List TFVote) (es : ℚ),
      qualityOf tvs es =
        if hiAgreeOf tvs es = true ∧ (0.6 : ℚ) ≤ |es| then 1
        else if (0.4 : ℚ) ≤ |es| then 0.95 else 0.85) ∧
    (∀ (st : EngineState) (p : Params) (tfs : List TFIn), tfs ≠ [] →
      (decision st p tfs).quality =
        qualityOf (tfVotesOf st tfs) (ensembleScoreOf (tfVotesOf st tfs))) ∧
    ((decision stDefault defaultParams [tfA5m, tfA1h, tfA1d]).ensembleScore = 0.6 ∧
     (decision stDefault defaultParams [tfA5m, tfA1h, tfA1d]).direction = Dir.buy ∧
     (decision stDefault defaultParams [tfA5m, tfA1h, tfA1d]).quality = 1) := by
  refine ⟨?_, ?_, ?_, ?_, ?_⟩
  · intro tvs es
    simp only [qualityOf]
    by_cases h1 : hiAgreeOf tvs es = true ∧ (0.6 : ℚ) ≤ |es|
    · rw [if_pos h1, if_pos h1]
    · rw [if_neg h1, if_neg h1]
      by_cases h2 : (0.4 : ℚ) ≤ |es|
      · rw [if_pos h2, if_pos h2]
        norm_num
      · rw [if_neg h2, if_neg h2]
  · intro st p tfs hne
    cases tfs with
    | nil => exact absurd rfl hne
    | cons tf0 rest => rfl
  all_goals with_unfolding_all decide

/-- C8 (witness): the quality wiring of the amended theorem applied at a
concrete non-empty input. -/
theorem spec_c8_witness :
    (decision stDefault defaultParams [tfB1h, tfB1d]).quality =
      qualityOf (tfVotesOf stDefault [tfB1h, tfB1d])
        (ensembleScoreOf (tfVotesOf stDefault [tfB1h, tfB1d])) :=
  spec_c8_amended.2.1 stDefault defaultParams [tfB1h, tfB1d] (List.cons_ne_nil _ _)

/-- C9: whenever the candle window is shorter than the indicator lookback
`max(period, slopeWindow) + 2`, `EMAIndicator.decision` returns (rather than
throws) the invalid vote: `isValid: false`, direction `none`, directional 0,
confidence 0 — for every possible successful-path payload. -/
theorem spec_c9 (okBody : EmaOk) (period slopeWindow : ℕ) (confirmOnClose : Bool)
    (closes : List ℚ) (hshort : closes.length < max period slopeWindow + 2) :
    emaDecision okBody period slopeWindow confirmOnClose closes =
      { id := "ema", direction := Dir.none, entry := Entry.noTrigger,
        directional := 0, confidence := 0, quality := 0.5, isValid := false } := by
  unfold emaDecision emaCalculate
  rw [if_pos (Or.inr hshort)]

/-- C9 (witness): a 3-bar window with the default EMA period 9 and slope
window 3 (lookback 11) yields the invalid vote, whatever the payload. -/
theorem spec_c9_witness :
    emaDecision emaOkSample 9 3 true [1, 2, 3] =
      { id := "ema", direction := Dir.none, entry := Entry.noTrigger,
        directional := 0, confidence := 0, quality := 0.5, isValid := false } :=
  spec_c9 emaOkSample 9 3 true [1, 2, 3] (by norm_num)

end Automation

